import Mathlib

/-!
# OSLab3: shared counter and child-process registry

A shallow embedding of the POSIX build (the `#else` branches) of

* `src/src/counter.cpp`          : `Counter::Counter`, `increment`, `setValue`, `getValue`
* `src/src/main.cpp`             : `runAsChild`, the launch block of `runMaster`, `main`
* `src/src/process_manager.cpp`  : `launchChildProcess`, `checkFinishedProcesses`,
                                   `hasActiveChildren`, `getExecutablePath`,
                                   `setMasterMode`, `cleanup`

Conventions.

* A C++ `int` is a mathematical integer in the 32-bit two's complement range; the
  arithmetic the code performs on it (`current + 1`, `currentValue + 10`,
  `currentValue * 2`) is wrapped with `wrapInt32`.
* The named shared-memory object `/counter_shm` is the value of type `Segment`; it is
  the only state shared between processes and is threaded through every operation.
* Results of operating-system calls (`shm_open`, `ftruncate`, `mmap`, `readlink`,
  `fork`, `time`, `waitpid`) are inputs of the embedded functions.
* A store through an invalid pointer, and the child side of `fork`, do not return
  to the caller: the embedded function yields `none` there.
* Mutexes, the condition variable and logging have no effect on the values computed
  and are left out.
-/

namespace OSLab3

/-! ## Machine integers -/

/-- Membership in the range of a 32-bit signed `int`. -/
def isInt32 (x : Int) : Prop := -2147483648 ≤ x ∧ x ≤ 2147483647

instance (x : Int) : Decidable (isInt32 x) :=
  inferInstanceAs (Decidable (-2147483648 ≤ x ∧ x ≤ 2147483647))

/-- Two's complement reduction of an arithmetic result to a 32-bit signed `int`. -/
def wrapInt32 (x : Int) : Int := (x + 2147483648) % 4294967296 - 2147483648

/-! ## The shared segment -/

/-- State of the named shared-memory object `/counter_shm`:
absent, created but still of length zero, or holding one `int`. -/
inductive Segment where
  | absent
  | created
  | holds (v : Int)
  deriving DecidableEq, Repr

/-- Effect of a successful `shm_open("/counter_shm", O_CREAT | O_RDWR, 0666)`:
an absent object is created with length zero, an existing one is opened as it is. -/
def Segment.shm_open : Segment → Segment
  | Segment.absent => Segment.created
  | s => s

/-- Effect of a successful `ftruncate(shm_fd, sizeof(int))`: a zero-length object is
extended with zero bytes, an object that already has this length keeps its content. -/
def Segment.ftruncate : Segment → Segment
  | Segment.holds v => Segment.holds v
  | _ => Segment.holds 0

/-- The `int` read through a valid mapping of the object. -/
def Segment.load : Segment → Int
  | Segment.holds v => v
  | _ => 0

/-- Value of the member `sharedMemory`: the null pointer, a valid mapping of the
segment, or `MAP_FAILED` (which is `(void*)-1`, a non-null invalid address). -/
inductive Ptr where
  | null
  | mapped
  | mapFailed
  deriving DecidableEq, Repr

/-- Results of the three system calls made by `Counter::Counter`. -/
structure ShmCalls where
  /-- the descriptor returned by `shm_open`, `-1` on error -/
  shm_open : Int
  /-- the value returned by `ftruncate`, `-1` on error -/
  ftruncate : Int
  /-- whether `mmap` returns `MAP_FAILED` -/
  mmapFailed : Bool
  deriving DecidableEq, Repr

/-! ## Counter (counter.h, counter.cpp) -/

/-- Data members of `class Counter` (counter.h:26-36, POSIX branch); `value` is the
process-local `std::atomic<int>`. -/
structure Counter where
  value : Int
  shm_fd : Int
  sharedMemory : Ptr
  deriving DecidableEq, Repr

/-- `Counter::Counter` (counter.cpp:19-73), POSIX branch, run once per process by the
first `Counter::getInstance()`. The object is the function-local static `instance`,
so its members are zero before the constructor body runs. Returns the constructed
object and the segment as the constructor leaves it. -/
def Counter.construct (os : ShmCalls) (seg : Segment) : Counter × Segment :=
  let c : Counter := { value := 0, shm_fd := 0, sharedMemory := Ptr.null }
  let c := { c with shm_fd := os.shm_open }
  if os.shm_open == -1 then (c, seg)
  else
    let seg := seg.shm_open
    if os.ftruncate == -1 then (c, seg)
    else
      let seg := seg.ftruncate
      let c := { c with sharedMemory := if os.mmapFailed then Ptr.mapFailed else Ptr.mapped }
      if c.sharedMemory == Ptr.mapFailed then (c, seg)
      else
        -- "Initialize if first process": *sharedValue = 0;
        let seg := Segment.holds 0
        -- "Read initial value from shared memory"
        ({ c with value := seg.load }, seg)

/-- The statement `*static_cast<int*>(sharedMemory) = v` under the guard
`if (sharedMemory)`: skipped for the null pointer, a store into the segment for a
valid mapping, and no defined result for `MAP_FAILED`. -/
def Counter.storeShared (c : Counter) (seg : Segment) : Option (Counter × Segment) :=
  match c.sharedMemory with
  | Ptr.null => some (c, seg)
  | Ptr.mapped => some (c, Segment.holds c.value)
  | Ptr.mapFailed => none

/-- `Counter::increment` (counter.cpp:75-84). -/
def Counter.increment (c : Counter) (seg : Segment) : Option (Counter × Segment) :=
  let current := c.value
  let c := { c with value := wrapInt32 (current + 1) }
  c.storeShared seg

/-- `Counter::setValue` (counter.cpp:86-95). -/
def Counter.setValue (c : Counter) (newValue : Int) (seg : Segment) :
    Option (Counter × Segment) :=
  let c := { c with value := newValue }
  c.storeShared seg

/-- `Counter::getValue` (counter.cpp:97-99). -/
def Counter.getValue (c : Counter) : Int := c.value

/-- A number of successive `increment()` calls by one process, nothing else touching
the segment in between. -/
def Counter.incrementN : Nat → Counter → Segment → Option (Counter × Segment)
  | 0, c, seg => some (c, seg)
  | n + 1, c, seg =>
    match c.increment seg with
    | none => none
    | some (c1, seg1) => Counter.incrementN n c1 seg1

/-! ## Worker program (main.cpp) -/

/-- Body of `runAsChild` (main.cpp:67-83) on the process's counter `c`. The argument
`sleep` is what the other processes do to the segment while a type 2 worker sleeps
(the identity when nobody else writes). -/
def runAsChildBody (type : Int) (sleep : Segment → Segment) (c : Counter) (seg : Segment) :
    Option (Counter × Segment) :=
  let currentValue := c.getValue
  if type == 1 then
    c.setValue (wrapInt32 (currentValue + 10)) seg
  else if type == 2 then
    match c.setValue (wrapInt32 (currentValue * 2)) seg with
    | none => none
    | some (c1, seg1) =>
      let seg2 := sleep seg1
      let currentValue := c1.getValue
      c1.setValue (Int.tdiv currentValue 2) seg2
  else some (c, seg)

/-- `runAsChild` (main.cpp:60-89): the worker process opens its own counter with
`Counter::getInstance()` and then runs the body; it ends with `exit(0)`. -/
def runAsChild (type : Int) (os : ShmCalls) (sleep : Segment → Segment) (seg : Segment) :
    Option (Counter × Segment) :=
  let (c, seg1) := Counter.construct os seg
  runAsChildBody type sleep c seg1

/-! ## Process manager (process_manager.h, process_manager.cpp) -/

/-- `struct ChildProcess` (process_manager.h:15-25), POSIX branch. -/
structure ChildProcess where
  pid : Int
  type : Int
  startTime : Int
  finished : Bool
  deriving DecidableEq, Repr

/-- Data members of `class ProcessManager` (process_manager.h:45-47). -/
structure ProcessManager where
  children : List ChildProcess
  isMasterProcess : Bool
  deriving DecidableEq, Repr

/-- Results of the system calls made by one `launchChildProcess` call. -/
structure SpawnCalls where
  /-- the path `readlink("/proc/self/exe", ...)` stores, `none` when it returns `-1` -/
  readlink : Option String
  /-- the value `fork()` returns in the process that executes the call -/
  fork : Int
  /-- the value of `time(nullptr)` -/
  time : Int
  deriving DecidableEq, Repr

/-- `ProcessManager::getExecutablePath` (process_manager.cpp:188-204), POSIX branch. -/
def ProcessManager.getExecutablePath (readlink : Option String) : String :=
  match readlink with
  | none => ""
  | some path => path

/-- `ProcessManager::launchChildProcess` (process_manager.cpp:27-106), POSIX branch.
The result is `none` in the forked child (`pid == 0`), which goes on to `execv` or
`exit(1)` and never returns to the caller; otherwise it is the returned `bool` and
the manager after the call. -/
def ProcessManager.launchChildProcess (os : SpawnCalls) (pm : ProcessManager) (type : Int) :
    Option (Bool × ProcessManager) :=
  let exePath := ProcessManager.getExecutablePath os.readlink
  if exePath.isEmpty then some (false, pm)
  else
    let pid := os.fork
    if pid == 0 then none
    else if pid > 0 then
      let child : ChildProcess :=
        { pid := pid, type := type, startTime := os.time, finished := false }
      some (true, { pm with children := pm.children ++ [child] })
    else some (false, pm)

/-- The `while (it != children.end())` loop of `checkFinishedProcesses`
(process_manager.cpp:111-144), POSIX branch. The iterator `it` is a position in the
vector, `k` counts the iterations done so far, and `waitpid k pid` is the value the
call `waitpid(it->pid, &status, WNOHANG)` of iteration `k` returns. Every iteration
either erases one element or advances `it`, so `fuel` bounds the number of
iterations by the distance from `it` to the end. -/
def ProcessManager.checkLoop (waitpid : Nat → Int → Int) :
    Nat → Nat → Nat → List ChildProcess → List ChildProcess
  | 0, _, _, children => children
  | fuel + 1, k, it, children =>
    match children.get? it with
    | none => children
    | some c =>
      if c.finished then
        ProcessManager.checkLoop waitpid fuel (k + 1) it (children.eraseIdx it)
      else
        let result := waitpid k c.pid
        if result > 0 then
          ProcessManager.checkLoop waitpid fuel (k + 1) it (children.eraseIdx it)
        else if result == -1 then
          ProcessManager.checkLoop waitpid fuel (k + 1) it (children.eraseIdx it)
        else
          ProcessManager.checkLoop waitpid fuel (k + 1) (it + 1) children

/-- `ProcessManager::checkFinishedProcesses` (process_manager.cpp:108-145): the loop
started at `children.begin()`, with as much fuel as there are elements. -/
def ProcessManager.checkFinishedProcesses (waitpid : Nat → Int → Int) (pm : ProcessManager) :
    ProcessManager :=
  { pm with
    children := ProcessManager.checkLoop waitpid pm.children.length 0 0 pm.children }

/-- The range-for loop of `hasActiveChildren` (process_manager.cpp:150-154) with its
early `return true`. -/
def ProcessManager.anyActive : List ChildProcess → Bool
  | [] => false
  | child :: rest => if !child.finished then true else ProcessManager.anyActive rest

/-- `ProcessManager::hasActiveChildren` (process_manager.cpp:147-157): the returned
`bool` and the manager after the call. -/
def ProcessManager.hasActiveChildren (pm : ProcessManager) : Bool × ProcessManager :=
  (ProcessManager.anyActive pm.children, pm)

/-- The registry restricted to the records whose process the poll reports as still
running (the poll returns `0`), in their original order; the record at position `i`
of `children` is the one polled in iteration `k + i`. This is the result the
specification gives for a reap; it is compared with `checkFinishedProcesses`. -/
def stillRunning (waitpid : Nat → Int → Int) (k : Nat) (children : List ChildProcess) :
    List ChildProcess :=
  ((children.enumFrom k).filter (fun p => waitpid p.1 p.2.pid == 0)).map Prod.snd

/-- `ProcessManager::ProcessManager` (process_manager.cpp:21): an empty registry and
`isMasterProcess(false)`. -/
def ProcessManager.construct : ProcessManager :=
  { children := [], isMasterProcess := false }

/-- `ProcessManager::setMasterMode` (process_manager.cpp:180-182). -/
def ProcessManager.setMasterMode (pm : ProcessManager) (isMaster : Bool) : ProcessManager :=
  { pm with isMasterProcess := isMaster }

/-- `ProcessManager::cleanup` (process_manager.cpp:159-178): after signalling the
children still tracked, the registry is cleared. -/
def ProcessManager.cleanup (pm : ProcessManager) : ProcessManager :=
  { pm with children := [] }

/-! ## Master program (main.cpp) -/

/-- The child launch block of `runMaster` (main.cpp:120-135), entered when the
3-second cadence is due: the reap, the `hasActiveChildren` test and the launches
`pm.launchChildProcess(1) && pm.launchChildProcess(2)`, the second of which is only
evaluated when the first returns true. `os1` and `os2` are the system-call results
seen by the first and the second launch. The result is `none` on the child side of
a `fork`. -/
def runMasterLaunchBlock (waitpid : Nat → Int → Int) (os1 os2 : SpawnCalls)
    (pm : ProcessManager) : Option ProcessManager :=
  let pm1 := ProcessManager.checkFinishedProcesses waitpid pm
  let (active, pm2) := ProcessManager.hasActiveChildren pm1
  if !active then
    match ProcessManager.launchChildProcess os1 pm2 1 with
    | none => none
    | some (false, pm3) => some pm3
    | some (true, pm3) =>
      match ProcessManager.launchChildProcess os2 pm3 2 with
      | none => none
      | some (_, pm4) => some pm4
  else some pm2

/-- What happens, in order, while the process runs its loops: the worker thread
(`runMaster` or `runSlave`) finds one of its cadences due, or the main thread reads
input. All counter operations take the counter's mutex, so they happen one after
another. -/
inductive MasterEvent where
  /-- the 300 ms cadence is due: `counter.increment()` (main.cpp:107-111, 151-155) -/
  | incrementDue
  /-- the 3 s cadence of `runMaster` is due (main.cpp:121-135) -/
  | launchDue (waitpid : Nat → Int → Int) (os1 os2 : SpawnCalls)
  /-- a line of digits was entered: `counter.setValue(newValue)` (main.cpp:266-277) -/
  | setValue (newValue : Int)
  /-- key `m`: the worker thread is restarted in the other mode (main.cpp:247-265) -/
  | toggleMode
  /-- key `q`, or SIGINT / SIGTERM: `running.store(false)` (main.cpp:25-27, 244-246) -/
  | quit

/-- The process followed is the one that called `fork`, not the child it created:
no `fork` of the event returns `0`. -/
def MasterEvent.onParentSide : MasterEvent → Bool
  | MasterEvent.launchDue _ os1 os2 => os1.fork != 0 && os2.fork != 0
  | _ => true

/-- The objects a running process of the program works on. -/
structure MasterState where
  counter : Counter
  seg : Segment
  pm : ProcessManager
  isMaster : Bool
  deriving DecidableEq, Repr

/-- How a run of `main` ends, as far as the given events go. -/
inductive Outcome where
  /-- `main` returned, or `exit` was called, with this code; the counter and the
  segment at that moment -/
  | exited (code : Int) (counter : Counter) (seg : Segment)
  /-- a store through `MAP_FAILED` -/
  | crashed
  /-- this process is the child side of a `fork` made by `launchChildProcess` -/
  | forkedChild
  /-- the events are used up and the loops are still running -/
  | running (st : MasterState)
  deriving DecidableEq, Repr

/-- The loops of `main` after start-up (main.cpp:229-299): the worker thread running
`runMaster` (main.cpp:92-139) or `runSlave` (main.cpp:142-159) and the input loop of
the main thread, driven by the events in their order; on `quit` both loops end and
`main` logs, runs `pm.cleanup()` and returns 0. -/
def mainLoop : MasterState → List MasterEvent → Outcome
  | st, [] => Outcome.running st
  | st, MasterEvent.quit :: _ => Outcome.exited 0 st.counter st.seg
  | st, MasterEvent.incrementDue :: rest =>
    match st.counter.increment st.seg with
    | none => Outcome.crashed
    | some (c, seg) => mainLoop { st with counter := c, seg := seg } rest
  | st, MasterEvent.setValue newValue :: rest =>
    match st.counter.setValue newValue st.seg with
    | none => Outcome.crashed
    | some (c, seg) => mainLoop { st with counter := c, seg := seg } rest
  | st, MasterEvent.toggleMode :: rest =>
    mainLoop { st with isMaster := !st.isMaster,
                       pm := st.pm.setMasterMode (!st.isMaster) } rest
  | st, MasterEvent.launchDue waitpid os1 os2 :: rest =>
    if st.isMaster then
      match runMasterLaunchBlock waitpid os1 os2 st.pm with
      | none => Outcome.forkedChild
      | some pm => mainLoop { st with pm := pm } rest
    else mainLoop st rest

/-- `main` (main.cpp:161-300). `child` is the type given with `--child`, if any;
`loggerOk` is the result of `logger.initialize("lab.log")`; `os` and `seg` are what
the counter's constructor meets; `sleep` is used by a type 2 worker; `events` drive
the loops of a process started without `--child`. -/
def main (child : Option Int) (loggerOk : Bool) (os : ShmCalls) (sleep : Segment → Segment)
    (seg : Segment) (events : List MasterEvent) : Outcome :=
  match child with
  | some childType =>
    match runAsChild childType os sleep seg with
    | none => Outcome.crashed
    | some (c, seg1) => Outcome.exited 0 c seg1
  | none =>
    if !loggerOk then
      Outcome.exited 1 { value := 0, shm_fd := 0, sharedMemory := Ptr.null } seg
    else
      let (counter, seg1) := Counter.construct os seg
      let pm := ProcessManager.construct
      let isMaster := true
      let pm := pm.setMasterMode isMaster
      mainLoop { counter := counter, seg := seg1, pm := pm, isMaster := isMaster } events

end OSLab3

/-! # Theorems -/

namespace OSLab3

/-! ## Helper lemmas -/

theorem wrapInt32_eq {x : Int} (h : isInt32 x) : wrapInt32 x = x := by
  unfold isInt32 at h
  unfold wrapInt32
  omega

theorem construct_of_success (os : ShmCalls) (seg : Segment)
    (h1 : os.shm_open ≠ -1) (h2 : os.ftruncate ≠ -1) (h3 : os.mmapFailed = false) :
    Counter.construct os seg
      = ({ value := 0, shm_fd := os.shm_open, sharedMemory := Ptr.mapped }, Segment.holds 0) := by
  simp [Counter.construct, h1, h2, h3, Segment.load]

theorem setValue_of_mapped (c : Counter) (x : Int) (seg : Segment)
    (h : c.sharedMemory = Ptr.mapped) :
    c.setValue x seg = some ({ c with value := x }, Segment.holds x) := by
  simp [Counter.setValue, Counter.storeShared, h]

theorem setValue_of_null (c : Counter) (x : Int) (seg : Segment)
    (h : c.sharedMemory = Ptr.null) :
    c.setValue x seg = some ({ c with value := x }, seg) := by
  simp [Counter.setValue, Counter.storeShared, h]

theorem increment_of_mapped (c : Counter) (seg : Segment)
    (h : c.sharedMemory = Ptr.mapped) :
    c.increment seg
      = some ({ c with value := wrapInt32 (c.value + 1) },
              Segment.holds (wrapInt32 (c.value + 1))) := by
  simp [Counter.increment, Counter.storeShared, h]

/-! ## Counter -/

/-- C1 (behaviour of the code at the failing input): a process that opens the counter
while the segment already exists and holds 5, every system call succeeding, leaves
the segment holding 0 and its local cache at 0; the existing value is overwritten. -/
theorem C1_construct_overwrites_existing_value :
    Counter.construct { shm_open := 3, ftruncate := 0, mmapFailed := false } (Segment.holds 5)
      = ({ value := 0, shm_fd := 3, sharedMemory := Ptr.mapped }, Segment.holds 0) := by
  decide

/-- C2: from a counter whose segment is mapped and whose shared value and local cache
are both `v0`, `N` successive `increment()` calls with no other writer all return and
leave the segment holding `v0 + N`, and `getValue()` then returns `v0 + N`, provided
`v0` and `v0 + N` are 32-bit signed values. -/
theorem C2_incrementN_adds_N (N : Nat) (v0 : Int) (c : Counter) (seg : Segment)
    (hmap : c.sharedMemory = Ptr.mapped) (hc : c.value = v0) (hseg : seg = Segment.holds v0)
    (h0 : isInt32 v0) (hN : isInt32 (v0 + N)) :
    ∃ c1, Counter.incrementN N c seg = some (c1, Segment.holds (v0 + N))
      ∧ c1.getValue = v0 + N := by
  induction N generalizing v0 c seg with
  | zero =>
    refine ⟨c, ?_, ?_⟩
    · simp [Counter.incrementN, hseg]
    · simp [Counter.getValue, hc]
  | succ n ih =>
    have h1 : isInt32 (v0 + 1) := by
      unfold isInt32 at *
      push_cast at hN
      omega
    have hN1 : isInt32 (v0 + 1 + (n : Int)) := by
      unfold isInt32 at *
      push_cast at hN
      omega
    obtain ⟨c1, hrun, hval⟩ :=
      ih (v0 + 1) { c with value := v0 + 1 } (Segment.holds (v0 + 1)) hmap rfl rfl h1 hN1
    refine ⟨c1, ?_, ?_⟩
    · rw [Counter.incrementN, increment_of_mapped c seg hmap, hc, wrapInt32_eq h1]
      simp only []
      rw [hrun]
      push_cast
      congr 3
      ring
    · rw [hval]
      push_cast
      ring

/-- Witness for C2: three increments from 5. -/
theorem C2_incrementN_adds_N_witness :
    ∃ c1, Counter.incrementN 3 { value := 5, shm_fd := 3, sharedMemory := Ptr.mapped }
        (Segment.holds 5) = some (c1, Segment.holds (5 + (3 : Nat)))
      ∧ c1.getValue = 5 + (3 : Nat) :=
  C2_incrementN_adds_N 3 5 { value := 5, shm_fd := 3, sharedMemory := Ptr.mapped }
    (Segment.holds 5) rfl rfl rfl (by decide) (by decide)

theorem setValue_getValue_of_valid (c : Counter) (x : Int) (seg : Segment)
    (h : c.sharedMemory ≠ Ptr.mapFailed) :
    ∃ c1 seg1, c.setValue x seg = some (c1, seg1) ∧ c1.getValue = x
      ∧ (c.sharedMemory = Ptr.mapped → seg1 = Segment.holds x)
      ∧ (c.sharedMemory = Ptr.null → seg1 = seg) := by
  cases hp : c.sharedMemory with
  | null => exact ⟨_, _, setValue_of_null c x seg hp, rfl, by simp, by simp⟩
  | mapped => exact ⟨_, _, setValue_of_mapped c x seg hp, rfl, by simp, by simp⟩
  | mapFailed => exact absurd hp h

/-- C3 (behaviour of the code at the failing input): when `mmap` fails in the
constructor, `sharedMemory` keeps the non-null value `MAP_FAILED`, and a later
`setValue(5)` passes the guard `if (sharedMemory)` and stores through that invalid
pointer, so the call has no defined result and no `getValue()` follows it. -/
theorem C3_setValue_through_MAP_FAILED :
    (Counter.construct { shm_open := 3, ftruncate := 0, mmapFailed := true }
        Segment.absent).1.sharedMemory = Ptr.mapFailed
    ∧ (Counter.construct { shm_open := 3, ftruncate := 0, mmapFailed := true }
        Segment.absent).1.setValue 5 (Segment.holds 0) = none := by
  decide

/-- C4 (counterexample): with the local cache at 0 and the shared segment holding 5
(written by another process), `increment()` leaves both at 1, not at 5 + 1. -/
theorem C4_increment_ignores_shared_value :
    Counter.increment { value := 0, shm_fd := 3, sharedMemory := Ptr.mapped } (Segment.holds 5)
      = some ({ value := 1, shm_fd := 3, sharedMemory := Ptr.mapped }, Segment.holds 1)
    ∧ Segment.holds 1 ≠ Segment.holds (5 + 1) := by
  decide

/-- C4 (amended): `increment()` reads the local cache, not the shared segment: for
every counter with the segment mapped whose local cache holds `c.value`, whatever
the segment holds, after `increment()` both the shared segment and the local cache
hold `c.value + 1` (when that is a 32-bit signed value). -/
theorem C4_increment_adds_one_to_cache (c : Counter) (seg : Segment)
    (hmap : c.sharedMemory = Ptr.mapped) (h1 : isInt32 (c.value + 1)) :
    ∃ c1, c.increment seg = some (c1, Segment.holds (c.value + 1))
      ∧ c1.getValue = c.value + 1 := by
  refine ⟨{ c with value := c.value + 1 }, ?_, rfl⟩
  rw [increment_of_mapped c seg hmap, wrapInt32_eq h1]

/-- Witness for C4 (amended): cache 0, segment holding 5. -/
theorem C4_increment_adds_one_to_cache_witness :
    ∃ c1, Counter.increment { value := 0, shm_fd := 3, sharedMemory := Ptr.mapped }
        (Segment.holds 5) = some (c1, Segment.holds (0 + 1))
      ∧ c1.getValue = 0 + 1 :=
  C4_increment_adds_one_to_cache { value := 0, shm_fd := 3, sharedMemory := Ptr.mapped }
    (Segment.holds 5) rfl (by decide)

/-! ## Worker programs -/

/-- C5 (behaviour of the code at the failing input): a type 1 worker started while
the segment holds 5, every system call succeeding and nobody else writing, leaves
the segment holding 10, not 5 + 10: its own constructor has reset the segment to 0
before the worker reads the value. -/
theorem C5_typeA_worker_from_5_ends_at_10 :
    runAsChild 1 { shm_open := 3, ftruncate := 0, mmapFailed := false } id (Segment.holds 5)
      = some ({ value := 10, shm_fd := 3, sharedMemory := Ptr.mapped }, Segment.holds 10)
    ∧ Segment.holds 10 ≠ Segment.holds (5 + 10) := by
  decide

/-- C6: the type 2 transformation of `runAsChild`, `setValue(v * 2)` followed by
`setValue(getValue() / 2)`, applied to a counter with the segment mapped whose value
is `v`, with no other writer during the sleep, returns and leaves the local cache and
the shared segment equal to `v`, for every `v` whose double is a 32-bit signed value
(odd or even). -/
theorem C6_typeB_round_trip (v : Int) (c : Counter) (seg : Segment)
    (hmap : c.sharedMemory = Ptr.mapped) (hc : c.value = v) (h2 : isInt32 (2 * v)) :
    ∃ c1, runAsChildBody 2 id c seg = some (c1, Segment.holds v) ∧ c1.getValue = v := by
  have hw : wrapInt32 (v * 2) = v * 2 := wrapInt32_eq (by rwa [mul_comm] at h2)
  have hd : Int.tdiv (v * 2) 2 = v := Int.mul_tdiv_cancel v (by decide)
  refine ⟨{ c with value := v }, ?_, rfl⟩
  simp [runAsChildBody, Counter.getValue, hc, hw, hd, setValue_of_mapped, hmap]

/-- Witness for C6: the odd value 7 goes to 14 and back to 7. -/
theorem C6_typeB_round_trip_witness :
    ∃ c1, runAsChildBody 2 id { value := 7, shm_fd := 3, sharedMemory := Ptr.mapped }
        (Segment.holds 7) = some (c1, Segment.holds 7) ∧ c1.getValue = 7 :=
  C6_typeB_round_trip 7 { value := 7, shm_fd := 3, sharedMemory := Ptr.mapped }
    (Segment.holds 7) rfl rfl (by decide)

/-- C7 (counterexample): a type 2 worker starts at 7 and doubles to 14; during its
sleep another process writes 100 to the segment; the worker's final write sets the
segment to 7, not to 100 / 2 = 50. -/
theorem C7_typeB_ignores_write_during_sleep :
    runAsChildBody 2 (fun _ => Segment.holds 100)
        { value := 7, shm_fd := 3, sharedMemory := Ptr.mapped } (Segment.holds 7)
      = some ({ value := 7, shm_fd := 3, sharedMemory := Ptr.mapped }, Segment.holds 7)
    ∧ Segment.holds 7 ≠ Segment.holds (Int.tdiv 100 2) := by
  decide

/-- C7 (amended): after its sleep a type 2 worker re-reads its local cache, not the
shared segment: whatever the other processes do to the segment between the doubling
write and the second read, the worker's final write sets the shared segment (and
its cache) to `(v * 2) / 2 = v`, where `v` is the value the worker read at its
start and `v * 2` is a 32-bit signed value. -/
theorem C7_typeB_final_write_from_cache (v : Int) (sleep : Segment → Segment) (c : Counter)
    (seg : Segment) (hmap : c.sharedMemory = Ptr.mapped) (hc : c.value = v)
    (h2 : isInt32 (2 * v)) :
    ∃ c1, runAsChildBody 2 sleep c seg = some (c1, Segment.holds v) ∧ c1.getValue = v := by
  have hw : wrapInt32 (v * 2) = v * 2 := wrapInt32_eq (by rwa [mul_comm] at h2)
  have hd : Int.tdiv (v * 2) 2 = v := Int.mul_tdiv_cancel v (by decide)
  refine ⟨{ c with value := v }, ?_, rfl⟩
  simp [runAsChildBody, Counter.getValue, hc, hw, hd, setValue_of_mapped, hmap]

/-- Witness for C7 (amended): from 7, with 15 written to the segment during the
sleep, the final value is 7. -/
theorem C7_typeB_final_write_from_cache_witness :
    ∃ c1, runAsChildBody 2 (fun _ => Segment.holds 15)
        { value := 7, shm_fd := 3, sharedMemory := Ptr.mapped } (Segment.holds 7)
      = some (c1, Segment.holds 7) ∧ c1.getValue = 7 :=
  C7_typeB_final_write_from_cache 7 (fun _ => Segment.holds 15)
    { value := 7, shm_fd := 3, sharedMemory := Ptr.mapped } (Segment.holds 7) rfl rfl
    (by decide)

/-! ## Process manager -/

theorem anyActive_iff (children : List ChildProcess) :
    ProcessManager.anyActive children = true ↔ ∃ c ∈ children, c.finished = false := by
  induction children with
  | nil => simp [ProcessManager.anyActive]
  | cons child rest ih =>
    cases hf : child.finished <;> simp [ProcessManager.anyActive, hf, ih]

/-- C8: `hasActiveChildren()` returns true exactly when some tracked record has
`finished == false`; it leaves the manager as it was; on the empty registry it
returns false. -/
theorem C8_hasActiveChildren_iff_unfinished_record (pm : ProcessManager) :
    ((ProcessManager.hasActiveChildren pm).1 = true ↔ ∃ c ∈ pm.children, c.finished = false)
    ∧ (ProcessManager.hasActiveChildren pm).2 = pm
    ∧ (ProcessManager.hasActiveChildren { pm with children := [] }).1 = false := by
  refine ⟨?_, rfl, rfl⟩
  simp [ProcessManager.hasActiveChildren, anyActive_iff]

/-- C9: `launchChildProcess(type)` inserts a record only on a confirmed launch. If
`getExecutablePath` returns the empty string, or `fork` returns a negative value, the
call returns false and the manager is as before; if the path is resolved and `fork`
returns a positive pid, the call returns true and the registry is the prior one with
exactly one record appended, carrying that pid, the given type and
`finished == false`. -/
theorem C9_launchChildProcess_inserts_only_on_success (os : SpawnCalls) (pm : ProcessManager)
    (type : Int) :
    (ProcessManager.getExecutablePath os.readlink = "" →
      ProcessManager.launchChildProcess os pm type = some (false, pm))
    ∧ (os.fork < 0 →
      ProcessManager.launchChildProcess os pm type = some (false, pm))
    ∧ (ProcessManager.getExecutablePath os.readlink ≠ "" → 0 < os.fork →
      ProcessManager.launchChildProcess os pm type
        = some (true, { pm with children := pm.children ++
            [{ pid := os.fork, type := type, startTime := os.time, finished := false }] })) := by
  refine ⟨?_, ?_, ?_⟩
  · intro h
    have he : ("" : String).isEmpty = true := by decide
    simp [ProcessManager.launchChildProcess, h, he]
  · intro h
    have h0 : os.fork ≠ 0 := by omega
    have h1 : ¬ 0 < os.fork := by omega
    simp [ProcessManager.launchChildProcess, h0, h1]
  · intro hp h
    have h0 : os.fork ≠ 0 := by omega
    have he : (ProcessManager.getExecutablePath os.readlink).isEmpty = false := by
      cases hb : (ProcessManager.getExecutablePath os.readlink).isEmpty with
      | false => rfl
      | true => exact absurd ((String.isEmpty_iff _).mp hb) hp
    simp [ProcessManager.launchChildProcess, h0, h, he]

/-- Witness for C9: an unresolved path, a failed `fork`, and a successful launch of a
type 2 child with pid 42 into a registry that already tracks pid 41. -/
theorem C9_launchChildProcess_inserts_only_on_success_witness :
    ProcessManager.launchChildProcess { readlink := none, fork := 42, time := 7 }
        { children := [], isMasterProcess := true } 1
      = some (false, { children := [], isMasterProcess := true })
    ∧ ProcessManager.launchChildProcess { readlink := some "/bin/lab", fork := -1, time := 7 }
        { children := [], isMasterProcess := true } 1
      = some (false, { children := [], isMasterProcess := true })
    ∧ ProcessManager.launchChildProcess { readlink := some "/bin/lab", fork := 42, time := 7 }
        { children := [{ pid := 41, type := 1, startTime := 7, finished := false }],
          isMasterProcess := true } 2
      = some (true,
          { children := [{ pid := 41, type := 1, startTime := 7, finished := false },
                         { pid := 42, type := 2, startTime := 7, finished := false }],
            isMasterProcess := true }) :=
  ⟨(C9_launchChildProcess_inserts_only_on_success
      { readlink := none, fork := 42, time := 7 }
      { children := [], isMasterProcess := true } 1).1 (by decide),
   (C9_launchChildProcess_inserts_only_on_success
      { readlink := some "/bin/lab", fork := -1, time := 7 }
      { children := [], isMasterProcess := true } 1).2.1 (by decide),
   (C9_launchChildProcess_inserts_only_on_success
      { readlink := some "/bin/lab", fork := 42, time := 7 }
      { children := [{ pid := 41, type := 1, startTime := 7, finished := false }],
        isMasterProcess := true } 2).2.2 (by decide) (by decide)⟩

theorem stillRunning_nil (waitpid : Nat → Int → Int) (k : Nat) :
    stillRunning waitpid k [] = [] := rfl

theorem stillRunning_cons (waitpid : Nat → Int → Int) (k : Nat) (c : ChildProcess)
    (rest : List ChildProcess) :
    stillRunning waitpid k (c :: rest)
      = if waitpid k c.pid = 0 then c :: stillRunning waitpid (k + 1) rest
        else stillRunning waitpid (k + 1) rest := by
  by_cases h : waitpid k c.pid = 0 <;>
    simp [stillRunning, List.enumFrom_cons, List.filter_cons, h]

theorem stillRunning_sublist (waitpid : Nat → Int → Int) (k : Nat)
    (children : List ChildProcess) :
    ∀ c ∈ stillRunning waitpid k children, c ∈ children := by
  induction children generalizing k with
  | nil => simp [stillRunning_nil]
  | cons d rest ih =>
    intro c hc
    rw [stillRunning_cons] at hc
    split at hc
    · rcases List.mem_cons.mp hc with h | h
      · exact List.mem_cons.mpr (Or.inl h)
      · exact List.mem_cons.mpr (Or.inr (ih (k + 1) c h))
    · exact List.mem_cons.mpr (Or.inr (ih (k + 1) c hc))

theorem stillRunning_eq_nil (waitpid : Nat → Int → Int) (k : Nat)
    (children : List ChildProcess)
    (h : ∀ i c, children.get? i = some c → waitpid (k + i) c.pid ≠ 0) :
    stillRunning waitpid k children = [] := by
  induction children generalizing k with
  | nil => rfl
  | cons d rest ih =>
    have hd : waitpid k d.pid ≠ 0 := by
      have := h 0 d (by simp)
      simpa using this
    rw [stillRunning_cons, if_neg hd]
    apply ih
    intro i c hi
    have := h (i + 1) c (by simpa using hi)
    rwa [show k + (i + 1) = k + 1 + i by omega] at this

/-- The loop invariant of `checkFinishedProcesses`: with the iterator at the end of
the part `kept` already examined and enough fuel for the part `rest` still ahead,
the loop returns `kept` followed by the still-running records of `rest`. -/
theorem checkLoop_append (waitpid : Nat → Int → Int)
    (hposix : ∀ k pid, -1 ≤ waitpid k pid) :
    ∀ (rest kept : List ChildProcess) (fuel k : Nat),
      (∀ c ∈ rest, c.finished = false) → rest.length ≤ fuel →
      ProcessManager.checkLoop waitpid fuel k kept.length (kept ++ rest)
        = kept ++ stillRunning waitpid k rest := by
  intro rest
  induction rest with
  | nil =>
    intro kept fuel k _ _
    cases fuel with
    | zero => simp [ProcessManager.checkLoop, stillRunning_nil]
    | succ f => simp [ProcessManager.checkLoop, stillRunning_nil]
  | cons c rest ih =>
    intro kept fuel k hfresh hfuel
    cases fuel with
    | zero => simp at hfuel
    | succ f =>
      have hf : rest.length ≤ f := by simpa using hfuel
      have hc : c.finished = false := hfresh c (List.mem_cons_self _ _)
      have hrest : ∀ d ∈ rest, d.finished = false :=
        fun d hd => hfresh d (List.mem_cons_of_mem _ hd)
      have hget : (kept ++ c :: rest).get? kept.length = some c := by
        rw [List.get?_eq_getElem?, List.getElem?_append_right (le_refl _)]
        simp
      have herase : (kept ++ c :: rest).eraseIdx kept.length = kept ++ rest := by
        rw [List.eraseIdx_append_of_length_le (le_refl _)]
        simp
      rw [ProcessManager.checkLoop, hget]
      simp only [hc, herase]
      rw [stillRunning_cons]
      by_cases hpos : waitpid k c.pid > 0
      · have hne : waitpid k c.pid ≠ 0 := by omega
        simp only [hpos, if_true, if_neg hne]
        exact ih kept f (k + 1) hrest hf
      · by_cases herr : waitpid k c.pid = -1
        · have hne : waitpid k c.pid ≠ 0 := by omega
          simp [herr]
          exact ih kept f (k + 1) hrest hf
        · have hz : waitpid k c.pid = 0 := by
            have := hposix k c.pid
            omega
          have := ih (kept ++ [c]) f (k + 1) hrest hf
          simp [hz]
          simpa using this

/-- A record appended by `launchChildProcess` is not flagged finished, so a registry
whose records are all unflagged stays so. -/
theorem launchChildProcess_keeps_unflagged (os : SpawnCalls) (pm pm1 : ProcessManager)
    (type : Int) (b : Bool)
    (hfresh : ∀ c ∈ pm.children, c.finished = false)
    (hrun : ProcessManager.launchChildProcess os pm type = some (b, pm1)) :
    ∀ c ∈ pm1.children, c.finished = false := by
  unfold ProcessManager.launchChildProcess at hrun
  simp only [] at hrun
  split at hrun
  · cases hrun
    exact hfresh
  · split at hrun
    · cases hrun
    · split at hrun
      · cases hrun
        intro c hc
        rcases List.mem_append.mp hc with h | h
        · exact hfresh c h
        · rw [List.mem_singleton.mp h]
      · cases hrun
        exact hfresh

/-- A reap only removes records, so a registry whose records are all unflagged stays
so. Together with `launchChildProcess_keeps_unflagged`: every registry reached from
the empty one has only unflagged records. -/
theorem checkFinishedProcesses_keeps_unflagged (waitpid : Nat → Int → Int)
    (pm : ProcessManager) (hposix : ∀ k pid, -1 ≤ waitpid k pid)
    (hfresh : ∀ c ∈ pm.children, c.finished = false) :
    ∀ c ∈ (ProcessManager.checkFinishedProcesses waitpid pm).children, c.finished = false := by
  intro c hc
  have hloop := checkLoop_append waitpid hposix pm.children [] pm.children.length 0 hfresh
    (le_refl _)
  simp only [List.length_nil, List.nil_append] at hloop
  have hmem : c ∈ stillRunning waitpid 0 pm.children := by
    rw [← hloop]
    exact hc
  exact hfresh c (stillRunning_sublist waitpid 0 pm.children c hmem)

/-- C10: for every registry whose records are unflagged (every registry built by
`launchChildProcess`) and every outcome of the polls (each `waitpid` returning `-1`,
`0` or a pid), the registry after `checkFinishedProcesses()` is exactly the prior
registry restricted to the records whose poll reports the process as still running,
in their original order; nothing else in the manager changes; and if no poll reports
a running process the registry becomes empty and `hasActiveChildren()` is false. -/
theorem C10_checkFinishedProcesses_keeps_exactly_running (waitpid : Nat → Int → Int)
    (pm : ProcessManager)
    (hposix : ∀ k pid, -1 ≤ waitpid k pid)
    (hfresh : ∀ c ∈ pm.children, c.finished = false) :
    (ProcessManager.checkFinishedProcesses waitpid pm).children
        = stillRunning waitpid 0 pm.children
    ∧ (ProcessManager.checkFinishedProcesses waitpid pm).isMasterProcess = pm.isMasterProcess
    ∧ ((∀ i c, pm.children.get? i = some c → waitpid i c.pid ≠ 0) →
        (ProcessManager.checkFinishedProcesses waitpid pm).children = []
        ∧ (ProcessManager.hasActiveChildren
            (ProcessManager.checkFinishedProcesses waitpid pm)).1 = false) := by
  have hloop : (ProcessManager.checkFinishedProcesses waitpid pm).children
      = stillRunning waitpid 0 pm.children := by
    have := checkLoop_append waitpid hposix pm.children [] pm.children.length 0 hfresh
      (le_refl _)
    simpa [ProcessManager.checkFinishedProcesses] using this
  refine ⟨hloop, rfl, ?_⟩
  intro hall
  have hnil : (ProcessManager.checkFinishedProcesses waitpid pm).children = [] := by
    rw [hloop]
    apply stillRunning_eq_nil
    intro i c hi
    simpa using hall i c hi
  refine ⟨hnil, ?_⟩
  simp [ProcessManager.hasActiveChildren, hnil, ProcessManager.anyActive]

/-- Witness for C10: of three tracked children with pids 1, 2, 3, only pid 2 is
reported as still running; the reap keeps exactly its record. -/
theorem C10_checkFinishedProcesses_keeps_exactly_running_witness :
    (ProcessManager.checkFinishedProcesses (fun _ pid => if pid = 2 then 0 else 1)
        { children := [{ pid := 1, type := 1, startTime := 0, finished := false },
                       { pid := 2, type := 2, startTime := 0, finished := false },
                       { pid := 3, type := 1, startTime := 0, finished := false }],
          isMasterProcess := true }).children
      = stillRunning (fun _ pid => if pid = 2 then 0 else 1) 0
          [{ pid := 1, type := 1, startTime := 0, finished := false },
           { pid := 2, type := 2, startTime := 0, finished := false },
           { pid := 3, type := 1, startTime := 0, finished := false }]
    ∧ stillRunning (fun _ pid => if pid = 2 then 0 else 1) 0
          [{ pid := 1, type := 1, startTime := 0, finished := false },
           { pid := 2, type := 2, startTime := 0, finished := false },
           { pid := 3, type := 1, startTime := 0, finished := false }]
      = [{ pid := 2, type := 2, startTime := 0, finished := false }] :=
  ⟨(C10_checkFinishedProcesses_keeps_exactly_running (fun _ pid => if pid = 2 then 0 else 1)
      { children := [{ pid := 1, type := 1, startTime := 0, finished := false },
                     { pid := 2, type := 2, startTime := 0, finished := false },
                     { pid := 3, type := 1, startTime := 0, finished := false }],
        isMasterProcess := true }
      (fun _ pid => by
        show (-1 : Int) ≤ if pid = 2 then 0 else 1
        split <;> decide)
      (by decide)).1,
   by decide⟩

/-! ## Master program -/

/-- Whatever the registry held before, every record the reap loop leaves is
unflagged: a flagged record is erased when the iterator reaches it. -/
theorem checkLoop_unflagged (waitpid : Nat → Int → Int) :
    ∀ (rest kept : List ChildProcess) (fuel k : Nat),
      (∀ c ∈ kept, c.finished = false) → rest.length ≤ fuel →
      ∀ c ∈ ProcessManager.checkLoop waitpid fuel k kept.length (kept ++ rest),
        c.finished = false := by
  intro rest
  induction rest with
  | nil =>
    intro kept fuel k hkept _
    cases fuel with
    | zero => simpa [ProcessManager.checkLoop] using hkept
    | succ f => simpa [ProcessManager.checkLoop] using hkept
  | cons d rest ih =>
    intro kept fuel k hkept hfuel
    cases fuel with
    | zero => simp at hfuel
    | succ f =>
      have hf : rest.length ≤ f := by simpa using hfuel
      have hget : (kept ++ d :: rest).get? kept.length = some d := by
        rw [List.get?_eq_getElem?, List.getElem?_append_right (le_refl _)]
        simp
      have herase : (kept ++ d :: rest).eraseIdx kept.length = kept ++ rest := by
        rw [List.eraseIdx_append_of_length_le (le_refl _)]
        simp
      have hstay := ih kept f (k + 1) hkept hf
      rw [ProcessManager.checkLoop, hget]
      simp only [herase]
      cases hd : d.finished with
      | true => simpa using hstay
      | false =>
        have hkept1 : ∀ c ∈ kept ++ [d], c.finished = false := by
          intro c hc
          rcases List.mem_append.mp hc with h | h
          · exact hkept c h
          · rw [List.mem_singleton.mp h]
            exact hd
        have hmove := ih (kept ++ [d]) f (k + 1) hkept1 hf
        simp only [List.length_append, List.length_singleton, List.append_assoc,
          List.singleton_append] at hmove
        by_cases hpos : waitpid k d.pid > 0
        · simpa [hpos] using hstay
        · by_cases herr : waitpid k d.pid = -1
          · simpa [herr] using hstay
          · simpa [hpos, herr] using hmove

theorem anyActive_false_of_unflagged (children : List ChildProcess)
    (hfresh : ∀ c ∈ children, c.finished = false)
    (hnone : ProcessManager.anyActive children = false) : children = [] := by
  cases children with
  | nil => rfl
  | cons d rest =>
    have hd : d.finished = false := hfresh d (List.mem_cons_self _ _)
    simp [ProcessManager.anyActive, hd] at hnone

/-- After a reap that leaves no active child the registry is empty. -/
theorem checkFinishedProcesses_empty_of_none_active (waitpid : Nat → Int → Int)
    (pm : ProcessManager)
    (hnone : (ProcessManager.hasActiveChildren
      (ProcessManager.checkFinishedProcesses waitpid pm)).1 = false) :
    (ProcessManager.checkFinishedProcesses waitpid pm).children = [] := by
  apply anyActive_false_of_unflagged
  · have := checkLoop_unflagged waitpid pm.children [] pm.children.length 0 (by simp)
      (le_refl _)
    simpa [ProcessManager.checkFinishedProcesses] using this
  · simpa [ProcessManager.hasActiveChildren] using hnone

theorem launchChildProcess_of_success (os : SpawnCalls) (pm : ProcessManager) (type : Int)
    (hpath : ProcessManager.getExecutablePath os.readlink ≠ "") (hfork : 0 < os.fork) :
    ProcessManager.launchChildProcess os pm type
      = some (true, { pm with children := pm.children ++
          [{ pid := os.fork, type := type, startTime := os.time, finished := false }] }) := by
  have h0 : os.fork ≠ 0 := by omega
  have he : (ProcessManager.getExecutablePath os.readlink).isEmpty = false := by
    cases hb : (ProcessManager.getExecutablePath os.readlink).isEmpty with
    | false => rfl
    | true => exact absurd ((String.isEmpty_iff _).mp hb) hpath
  simp [ProcessManager.launchChildProcess, h0, hfork, he]

/-- C12 (counterexample): with an empty registry, so that no child is active after
the reap, and a first launch whose `fork` fails, the step launches nothing: the
registry afterwards holds no record, not two. -/
theorem C12_launch_block_after_failed_fork :
    (ProcessManager.hasActiveChildren
        (ProcessManager.checkFinishedProcesses (fun _ _ => 0)
          { children := [], isMasterProcess := true })).1 = false
    ∧ runMasterLaunchBlock (fun _ _ => 0)
        { readlink := some "/bin/lab", fork := -1, time := 7 }
        { readlink := some "/bin/lab", fork := 43, time := 7 }
        { children := [], isMasterProcess := true }
      = some { children := [], isMasterProcess := true } := by
  decide

/-- C12 (amended): in one spawn-cadence step of the master loop, if some tracked
child is still active after the reap, no child is launched and the manager is the
reaped one; if none is active and both launches succeed (each path resolved, each
`fork` returning a positive pid), the step spawns one type 1 and one type 2 child
and the registry afterwards holds exactly two records, of type 1 and of type 2. -/
theorem C12_launch_block_step (waitpid : Nat → Int → Int) (os1 os2 : SpawnCalls)
    (pm : ProcessManager) :
    ((ProcessManager.hasActiveChildren
        (ProcessManager.checkFinishedProcesses waitpid pm)).1 = true →
      runMasterLaunchBlock waitpid os1 os2 pm
        = some (ProcessManager.checkFinishedProcesses waitpid pm))
    ∧ ((ProcessManager.hasActiveChildren
        (ProcessManager.checkFinishedProcesses waitpid pm)).1 = false →
      ProcessManager.getExecutablePath os1.readlink ≠ "" → 0 < os1.fork →
      ProcessManager.getExecutablePath os2.readlink ≠ "" → 0 < os2.fork →
      runMasterLaunchBlock waitpid os1 os2 pm
        = some { children :=
                   [{ pid := os1.fork, type := 1, startTime := os1.time, finished := false },
                    { pid := os2.fork, type := 2, startTime := os2.time, finished := false }],
                 isMasterProcess := pm.isMasterProcess }) := by
  constructor
  · intro hact
    have hact1 : ProcessManager.anyActive
        (ProcessManager.checkFinishedProcesses waitpid pm).children = true := by
      simpa [ProcessManager.hasActiveChildren] using hact
    simp [runMasterLaunchBlock, ProcessManager.hasActiveChildren, hact1]
  · intro hnone hp1 hf1 hp2 hf2
    have hempty := checkFinishedProcesses_empty_of_none_active waitpid pm hnone
    have hnone1 : ProcessManager.anyActive
        (ProcessManager.checkFinishedProcesses waitpid pm).children = false := by
      simpa [ProcessManager.hasActiveChildren] using hnone
    have hmaster : (ProcessManager.checkFinishedProcesses waitpid pm).isMasterProcess
        = pm.isMasterProcess := rfl
    simp [runMasterLaunchBlock, ProcessManager.hasActiveChildren,
      launchChildProcess_of_success, hp1, hf1, hp2, hf2, hempty, hmaster,
      ProcessManager.anyActive]

/-- Witness for C12 (amended): a registry tracking pid 5, reported as exited by the
poll, is reaped to empty and refilled with the records of pids 42 and 43. -/
theorem C12_launch_block_step_witness :
    runMasterLaunchBlock (fun _ _ => 1)
        { readlink := some "/bin/lab", fork := 42, time := 7 }
        { readlink := some "/bin/lab", fork := 43, time := 8 }
        { children := [{ pid := 5, type := 1, startTime := 0, finished := false }],
          isMasterProcess := true }
      = some { children :=
                 [{ pid := 42, type := 1, startTime := 7, finished := false },
                  { pid := 43, type := 2, startTime := 8, finished := false }],
               isMasterProcess := true } :=
  (C12_launch_block_step (fun _ _ => 1)
      { readlink := some "/bin/lab", fork := 42, time := 7 }
      { readlink := some "/bin/lab", fork := 43, time := 8 }
      { children := [{ pid := 5, type := 1, startTime := 0, finished := false }],
        isMasterProcess := true }).2
    (by decide) (by decide) (by decide) (by decide) (by decide)

theorem construct_of_open_failure (os : ShmCalls) (seg : Segment)
    (hfail : os.shm_open = -1 ∨ os.ftruncate = -1) :
    (Counter.construct os seg).1.sharedMemory = Ptr.null := by
  unfold Counter.construct
  by_cases h1 : os.shm_open = -1
  · simp [h1]
  · have h2 : os.ftruncate = -1 := hfail.resolve_left h1
    simp [h1, h2]

theorem launchChildProcess_returns (os : SpawnCalls) (pm : ProcessManager) (type : Int)
    (hfork : os.fork ≠ 0) :
    ∃ r, ProcessManager.launchChildProcess os pm type = some r := by
  unfold ProcessManager.launchChildProcess
  simp only []
  split
  · exact ⟨_, rfl⟩
  · split
    · rename_i h
      exact absurd (by simpa using h) hfork
    · split
      · exact ⟨_, rfl⟩
      · exact ⟨_, rfl⟩

theorem runMasterLaunchBlock_returns (waitpid : Nat → Int → Int) (os1 os2 : SpawnCalls)
    (pm : ProcessManager) (h1 : os1.fork ≠ 0) (h2 : os2.fork ≠ 0) :
    ∃ pm1, runMasterLaunchBlock waitpid os1 os2 pm = some pm1 := by
  unfold runMasterLaunchBlock
  simp only []
  split
  · obtain ⟨⟨b, pm3⟩, hr⟩ := launchChildProcess_returns os1
      (ProcessManager.hasActiveChildren (ProcessManager.checkFinishedProcesses waitpid pm)).2
      1 h1
    rw [hr]
    cases b with
    | false => exact ⟨_, rfl⟩
    | true =>
      obtain ⟨⟨b2, pm4⟩, hr2⟩ := launchChildProcess_returns os2 pm3 2 h2
      simp only [hr2]
      exact ⟨_, rfl⟩
  · exact ⟨_, rfl⟩

/-- With `sharedMemory` null no operation of the loops stores into the segment or
fails, so the loops run on the process-local counter until `quit`, and `main` then
returns 0. -/
theorem mainLoop_of_null (events : List MasterEvent) :
    ∀ st : MasterState, st.counter.sharedMemory = Ptr.null →
      (∀ e ∈ events, e.onParentSide = true) →
      ∃ c, mainLoop st (events ++ [MasterEvent.quit]) = Outcome.exited 0 c st.seg
        ∧ c.sharedMemory = Ptr.null := by
  induction events with
  | nil =>
    intro st hnull _
    exact ⟨st.counter, by simp [mainLoop], hnull⟩
  | cons e rest ih =>
    intro st hnull hparent
    have hrest : ∀ e1 ∈ rest, e1.onParentSide = true :=
      fun e1 h1 => hparent e1 (List.mem_cons_of_mem _ h1)
    cases e with
    | incrementDue =>
      have hstep : st.counter.increment st.seg
          = some ({ st.counter with value := wrapInt32 (st.counter.value + 1) }, st.seg) := by
        simp [Counter.increment, Counter.storeShared, hnull]
      obtain ⟨c, hrun, hc⟩ := ih { st with
        counter := { st.counter with value := wrapInt32 (st.counter.value + 1) },
        seg := st.seg } hnull hrest
      exact ⟨c, by simpa [mainLoop, hstep] using hrun, hc⟩
    | setValue newValue =>
      have hstep := setValue_of_null st.counter newValue st.seg hnull
      obtain ⟨c, hrun, hc⟩ := ih { st with
        counter := { st.counter with value := newValue }, seg := st.seg } hnull hrest
      exact ⟨c, by simpa [mainLoop, hstep] using hrun, hc⟩
    | toggleMode =>
      obtain ⟨c, hrun, hc⟩ := ih { st with
        isMaster := !st.isMaster, pm := st.pm.setMasterMode (!st.isMaster) } hnull hrest
      exact ⟨c, by simpa [mainLoop] using hrun, hc⟩
    | quit =>
      exact ⟨st.counter, by simp [mainLoop], hnull⟩
    | launchDue waitpid os1 os2 =>
      have hside := hparent (MasterEvent.launchDue waitpid os1 os2) (List.mem_cons_self _ _)
      have h1 : os1.fork ≠ 0 := by
        simp [MasterEvent.onParentSide] at hside
        exact hside.1
      have h2 : os2.fork ≠ 0 := by
        simp [MasterEvent.onParentSide] at hside
        exact hside.2
      cases hm : st.isMaster with
      | false =>
        obtain ⟨c, hrun, hc⟩ := ih st hnull hrest
        exact ⟨c, by simpa [mainLoop, hm] using hrun, hc⟩
      | true =>
        obtain ⟨pm1, hpm⟩ := runMasterLaunchBlock_returns waitpid os1 os2 st.pm h1 h2
        obtain ⟨c, hrun, hc⟩ := ih { st with pm := pm1 } hnull hrest
        exact ⟨c, by simpa [mainLoop, hm, hpm] using hrun, hc⟩

/-- With the segment validly mapped every store of the loops succeeds, so the loops
run until `quit`, and `main` then returns 0 with the mapping still in place. -/
theorem mainLoop_of_mapped (events : List MasterEvent) :
    ∀ st : MasterState, st.counter.sharedMemory = Ptr.mapped →
      (∀ e ∈ events, e.onParentSide = true) →
      ∃ c seg1, mainLoop st (events ++ [MasterEvent.quit]) = Outcome.exited 0 c seg1
        ∧ c.sharedMemory = Ptr.mapped := by
  induction events with
  | nil =>
    intro st hmap _
    exact ⟨st.counter, st.seg, by simp [mainLoop], hmap⟩
  | cons e rest ih =>
    intro st hmap hparent
    have hrest : ∀ e1 ∈ rest, e1.onParentSide = true :=
      fun e1 h1 => hparent e1 (List.mem_cons_of_mem _ h1)
    cases e with
    | incrementDue =>
      have hstep := increment_of_mapped st.counter st.seg hmap
      obtain ⟨c, seg1, hrun, hc⟩ := ih { st with
        counter := { st.counter with value := wrapInt32 (st.counter.value + 1) },
        seg := Segment.holds (wrapInt32 (st.counter.value + 1)) } hmap hrest
      exact ⟨c, seg1, by simpa [mainLoop, hstep] using hrun, hc⟩
    | setValue newValue =>
      have hstep := setValue_of_mapped st.counter newValue st.seg hmap
      obtain ⟨c, seg1, hrun, hc⟩ := ih { st with
        counter := { st.counter with value := newValue },
        seg := Segment.holds newValue } hmap hrest
      exact ⟨c, seg1, by simpa [mainLoop, hstep] using hrun, hc⟩
    | toggleMode =>
      obtain ⟨c, seg1, hrun, hc⟩ := ih { st with
        isMaster := !st.isMaster, pm := st.pm.setMasterMode (!st.isMaster) } hmap hrest
      exact ⟨c, seg1, by simpa [mainLoop] using hrun, hc⟩
    | quit =>
      exact ⟨st.counter, st.seg, by simp [mainLoop], hmap⟩
    | launchDue waitpid os1 os2 =>
      have hside := hparent (MasterEvent.launchDue waitpid os1 os2) (List.mem_cons_self _ _)
      have h1 : os1.fork ≠ 0 := by
        simp [MasterEvent.onParentSide] at hside
        exact hside.1
      have h2 : os2.fork ≠ 0 := by
        simp [MasterEvent.onParentSide] at hside
        exact hside.2
      cases hm : st.isMaster with
      | false =>
        obtain ⟨c, seg1, hrun, hc⟩ := ih st hmap hrest
        exact ⟨c, seg1, by simpa [mainLoop, hm] using hrun, hc⟩
      | true =>
        obtain ⟨pm1, hpm⟩ := runMasterLaunchBlock_returns waitpid os1 os2 st.pm h1 h2
        obtain ⟨c, seg1, hrun, hc⟩ := ih { st with pm := pm1 } hmap hrest
        exact ⟨c, seg1, by simpa [mainLoop, hm, hpm] using hrun, hc⟩

/-- C11 (counterexample): `shm_open` fails in the constructor, the logger is
available; the master process still enters its loop, where the first increment
takes the local counter from 0 to 1, and on `quit` it exits with code 0 while
`sharedMemory` is null. -/
theorem C11_master_exits_0_after_failed_shm_open :
    main none true { shm_open := -1, ftruncate := 0, mmapFailed := false } id Segment.absent
        [MasterEvent.incrementDue, MasterEvent.quit]
      = Outcome.exited 0 { value := 1, shm_fd := -1, sharedMemory := Ptr.null }
          Segment.absent := by
  decide

/-- C11 (amended): if `shm_open` or `ftruncate` fails in the constructor, the master
process is not stopped by it: with the logger available it enters its loops with
`sharedMemory` null, works on its process-local counter without storing into the
segment, and on a clean stop exits with code 0; a master whose segment was mapped
successfully exits with code 0 on a clean stop as well, so the exit code 0 does not
tell whether the segment is mapped. (Stated for the process that made the `fork`
calls, whatever the other events are.) -/
theorem C11_master_exits_0_mapped_or_not (os : ShmCalls) (sleep : Segment → Segment)
    (seg : Segment) (events : List MasterEvent)
    (hparent : ∀ e ∈ events, e.onParentSide = true) :
    (os.shm_open = -1 ∨ os.ftruncate = -1 →
      ∃ c, main none true os sleep seg (events ++ [MasterEvent.quit])
          = Outcome.exited 0 c (Counter.construct os seg).2
        ∧ c.sharedMemory = Ptr.null)
    ∧ (os.shm_open ≠ -1 → os.ftruncate ≠ -1 → os.mmapFailed = false →
      ∃ c seg1, main none true os sleep seg (events ++ [MasterEvent.quit])
          = Outcome.exited 0 c seg1
        ∧ c.sharedMemory = Ptr.mapped) := by
  constructor
  · intro hfail
    have hnull := construct_of_open_failure os seg hfail
    obtain ⟨c, hrun, hc⟩ := mainLoop_of_null events
      { counter := (Counter.construct os seg).1, seg := (Counter.construct os seg).2,
        pm := ProcessManager.construct.setMasterMode true, isMaster := true } hnull hparent
    exact ⟨c, by simpa [main] using hrun, hc⟩
  · intro h1 h2 h3
    have hmap : (Counter.construct os seg).1.sharedMemory = Ptr.mapped := by
      rw [construct_of_success os seg h1 h2 h3]
    obtain ⟨c, seg1, hrun, hc⟩ := mainLoop_of_mapped events
      { counter := (Counter.construct os seg).1, seg := (Counter.construct os seg).2,
        pm := ProcessManager.construct.setMasterMode true, isMaster := true } hmap hparent
    exact ⟨c, seg1, by simpa [main] using hrun, hc⟩

/-- Witness for C11 (amended): the master increments, runs a launch step, takes a
value from the user and is stopped, once after `ftruncate` has failed and once with
the segment mapped; both runs end with exit code 0. -/
theorem C11_master_exits_0_mapped_or_not_witness :
    (∃ c, main none true { shm_open := 3, ftruncate := -1, mmapFailed := false } id
        Segment.absent
        ([MasterEvent.incrementDue,
          MasterEvent.launchDue (fun _ _ => 0)
            { readlink := some "/bin/lab", fork := 42, time := 7 }
            { readlink := some "/bin/lab", fork := 43, time := 7 },
          MasterEvent.setValue 5] ++ [MasterEvent.quit])
        = Outcome.exited 0 c
            (Counter.construct { shm_open := 3, ftruncate := -1, mmapFailed := false }
              Segment.absent).2
      ∧ c.sharedMemory = Ptr.null)
    ∧ (∃ c seg1, main none true { shm_open := 3, ftruncate := 0, mmapFailed := false } id
        Segment.absent
        ([MasterEvent.incrementDue,
          MasterEvent.launchDue (fun _ _ => 0)
            { readlink := some "/bin/lab", fork := 42, time := 7 }
            { readlink := some "/bin/lab", fork := 43, time := 7 },
          MasterEvent.setValue 5] ++ [MasterEvent.quit])
        = Outcome.exited 0 c seg1
      ∧ c.sharedMemory = Ptr.mapped) :=
  ⟨(C11_master_exits_0_mapped_or_not
      { shm_open := 3, ftruncate := -1, mmapFailed := false } id Segment.absent
      [MasterEvent.incrementDue,
       MasterEvent.launchDue (fun _ _ => 0)
         { readlink := some "/bin/lab", fork := 42, time := 7 }
         { readlink := some "/bin/lab", fork := 43, time := 7 },
       MasterEvent.setValue 5]
      (by decide)).1 (Or.inr rfl),
   (C11_master_exits_0_mapped_or_not
      { shm_open := 3, ftruncate := 0, mmapFailed := false } id Segment.absent
      [MasterEvent.incrementDue,
       MasterEvent.launchDue (fun _ _ => 0)
         { readlink := some "/bin/lab", fork := 42, time := 7 }
         { readlink := some "/bin/lab", fork := 43, time := 7 },
       MasterEvent.setValue 5]
      (by decide)).2 (by decide) (by decide) rfl⟩

end OSLab3
